import Mathlib

/-!
Verification of the color-ramp / token-builder core of the repository
(`src/lib/ramp.ts` and `src/lib/tokens.ts`) against its specification.

Modelling conventions (shallow embedding of the TypeScript source):

* JavaScript strings are modelled as `List Char` (`Str`); JS numbers as `ℚ`
  (all arithmetic the claims depend on is exact in binary floating point as
  well: the shared stop positions 0, 1/4, 1/2, 3/4, 1 are exact doubles, and
  the hue arithmetic facts proved below hold over any ordered field).
* JS objects used as string/number keyed records are modelled as association
  lists in insertion order (`jget` / `jset` mirror property read / write:
  assignment to an existing key updates in place, a fresh key is appended,
  exactly the iteration-order semantics of JS objects with such keys).
* Exceptions are modelled with `Except Str`.
* The external `culori` library is abstracted by a `Culori` structure holding
  its `parse`, `oklch`/`rgb` converters and `clampGamut`; `formatHex` is
  modelled concretely (`serializeHexRgb`) after culori's serializer, which
  rounds each channel times 255 to an integer clamped into [0,255] and prints
  two lowercase hex digits per channel.  `Array.prototype.sort` with the
  `localeCompare` comparator is modelled as lexicographic code-point sorting,
  which coincides with the root-locale collation on the emitted key alphabet
  (`-`, digits, lowercase letters).
-/

/-- JS strings are modelled as lists of characters. -/
abbrev Str : Type := List Char

/-- Shorthand turning a Lean string literal into the `Str` model. -/
def str (s : String) : Str := s.toList

/-- Whitespace recognised by `String.prototype.trim` (ASCII fragment; the
source only ever trims around hex strings). -/
def isWS (c : Char) : Bool := c = ' ' || c = '\t' || c = '\n' || c = '\r'

/-- Model of `String.prototype.trim`. -/
def jsTrim (s : Str) : Str := ((s.dropWhile isWS).reverse.dropWhile isWS).reverse

/-- Model of `toLowerCase` on one character (ASCII; the inputs the source
lowercases are hex-like strings). -/
def lowerChar (c : Char) : Char :=
  if 'A' ≤ c && c ≤ 'Z' then Char.ofNat (c.toNat + 32) else c

/-- Model of `String.prototype.toLowerCase`. -/
def jsToLower (s : Str) : Str := s.map lowerChar

/-- The sixteen lowercase hex digits in serializer order. -/
def hexChars : Str := str "0123456789abcdef"

/-- The character class `[0-9a-f]`: a decimal digit or a lowercase letter up
to `f`. -/
def isHexLower (c : Char) : Bool :=
  ('0' ≤ c && c ≤ '9') || ('a' ≤ c && c ≤ 'f')

/-- Test for the regex `^#[0-9a-f]{3}$` of `normalizeHex`. -/
def isHex3 (l : Str) : Bool :=
  match l with
  | c :: rest => c == '#' && rest.length == 3 && rest.all isHexLower
  | [] => false

/-- Test for the regex `^#[0-9a-f]{6}$` of `normalizeHex`. -/
def isHex6 (l : Str) : Bool :=
  match l with
  | c :: rest => c == '#' && rest.length == 6 && rest.all isHexLower
  | [] => false

/-- Expansion `"#" + h[1] + h[1] + h[2] + h[2] + h[3] + h[3]` of a 3-digit
shorthand (`normalizeHex`, ramp.ts). -/
def expand3 (l : Str) : Str :=
  match l with
  | _ :: a :: b :: c :: _ => '#' :: a :: a :: b :: b :: c :: c :: []
  | _ => l

/-- One lowercase hex digit (`Number.prototype.toString(16)` on 0..15). -/
def hexDigit (n : Nat) : Char := hexChars.getD (n % 16) '0'

/-- Two lowercase hex digits of a byte. -/
def hexByte (n : Nat) : Str := [hexDigit (n / 16), hexDigit n]

/-- Model of `Math.round` (round half towards positive infinity). -/
def jsRound (x : ℚ) : ℤ := ⌊x + 1 / 2⌋

/-- Channel value to byte: round `255 * v` and clamp into `[0, 255]`, as
culori's hex serializer does. -/
def clampByte (v : ℚ) : Nat := (min 255 (max 0 (jsRound (255 * v)))).toNat

/-- An rgb color object of culori (channels in `[0,1]` when in gamut). -/
structure Rgb where
  r : ℚ
  g : ℚ
  b : ℚ

/-- Model of culori's `formatHex` applied to an rgb color: `#` followed by
two lowercase hex digits per channel. -/
def serializeHexRgb (c : Rgb) : Str :=
  '#' :: (hexByte (clampByte c.r) ++ hexByte (clampByte c.g) ++ hexByte (clampByte c.b))

/-- Truncation towards zero, the rounding used by the JS `%` operator. -/
def ratTrunc (q : ℚ) : ℚ := if 0 ≤ q then (⌊q⌋ : ℚ) else (⌈q⌉ : ℚ)

/-- Model of the JS remainder operator `a % m` (sign follows the dividend). -/
def jsMod (a m : ℚ) : ℚ := a - m * ratTrunc (a / m)

/-- Source `wrapHue` (ramp.ts): wrap a hue into `[0, 360)`. -/
def wrapHue (h : ℚ) : ℚ :=
  let x := jsMod h 360
  if x < 0 then x + 360 else x

/-- Source `shortestHueDelta` (ramp.ts). -/
def shortestHueDelta (a b : ℚ) : ℚ :=
  let d := jsMod (b - a) 360
  let d1 := if 180 < d then d - 360 else d
  if d1 < -180 then d1 + 360 else d1

/-- An OKLCH color point as culori represents it: each coordinate may be
absent (culori leaves the hue undefined for achromatic colors); the source
reads coordinates with `?? 0`. -/
structure Oklch where
  l : Option ℚ
  c : Option ℚ
  h : Option ℚ

/-- Abstraction of the culori library over an opaque type of parsed color
objects: `parse`, the `oklch` and `rgb` converters, and `clampGamut`.
`Option` results model the `undefined` returns the source checks for. -/
structure Culori (Color : Type) where
  parse : Str → Option Color
  toOklch : Color → Oklch
  clampGamut : Oklch → Option Color
  toRgb : Color → Option Rgb

/-- Source `lerpOklch` (ramp.ts): componentwise linear interpolation of
lightness and chroma, shortest-path interpolation of hue. -/
def lerpOklch (a b : Oklch) (t : ℚ) : Oklch :=
  let ah := wrapHue (a.h.getD 0)
  let bh := wrapHue (b.h.getD 0)
  let dh := shortestHueDelta ah bh
  { l := some (a.l.getD 0 + (b.l.getD 0 - a.l.getD 0) * t)
    c := some (a.c.getD 0 + (b.c.getD 0 - a.c.getD 0) * t)
    h := some (wrapHue (ah + dh * t)) }

/-- Source `sampleWhiteBaseBlack` (ramp.ts): sample the conceptual
white → base → black gradient at position `t`.  A failed parse of the base
raises `Invalid base hex`; an undefined white/black endpoint would make the
JS code fault inside `lerpOklch`, modelled as a `TypeError` failure. -/
def sampleWhiteBaseBlack {Color : Type} (M : Culori Color) (baseHex : Str) (t : ℚ) :
    Except Str Oklch :=
  match M.parse baseHex with
  | none => .error (str "Invalid base hex")
  | some p =>
    let base := M.toOklch p
    let white := (M.parse (str "#ffffff")).map M.toOklch
    let black := (M.parse (str "#000000")).map M.toOklch
    if t ≤ 1 / 2 then
      match white with
      | none => .error (str "TypeError")
      | some w => .ok (lerpOklch w base (t / (1 / 2)))
    else
      match black with
      | none => .error (str "TypeError")
      | some bl => .ok (lerpOklch base bl ((t - 1 / 2) / (1 / 2)))

/-- Source `sampleRefined` (ramp.ts): sample the refined
light → base → dark gradient. -/
def sampleRefined (light base dark : Oklch) (t : ℚ) : Oklch :=
  if t ≤ 1 / 2 then lerpOklch light base (t / (1 / 2))
  else lerpOklch base dark ((t - 1 / 2) / (1 / 2))

/-- Fuelled body of the (recursive) source `normalizeHex` (ramp.ts); the
recursion depth is at most two because the recursive call is made on a
`formatHex` result, which already matches `#[0-9a-f]{6}`
(`normalizeHexF_fuel_independent` below makes the fuel bound honest). -/
def normalizeHexF {Color : Type} (M : Culori Color) : Nat → Str → Except Str Str
  | 0, _ => .error (str "Invalid hex")
  | fuel + 1, hex =>
    let h := jsToLower (jsTrim hex)
    if isHex3 h then .ok (expand3 h)
    else if isHex6 h then .ok h
    else
      match M.parse h with
      | none => .error (str "Invalid hex")
      | some p =>
        match (M.toRgb p).map serializeHexRgb with
        | none => .error (str "Invalid hex")
        | some formatted => normalizeHexF M fuel formatted

/-- Source `normalizeHex` (ramp.ts). -/
def normalizeHex {Color : Type} (M : Culori Color) (hex : Str) : Except Str Str :=
  normalizeHexF M 2 hex

/-- Source `toHexSafe` (ramp.ts): clamp into gamut, convert to rgb,
serialize, and normalize. -/
def toHexSafe {Color : Type} (M : Culori Color) (c : Oklch) : Except Str Str :=
  match M.clampGamut c with
  | none => .error (str "Failed to clamp color to gamut")
  | some clamped =>
    match M.toRgb clamped with
    | none => .error (str "Failed to convert to RGB")
    | some rgb => normalizeHex M (serializeHexRgb rgb)

/-- The two stop sets of `generateRamp9`. -/
inductive StopSet : Type
  | figma
  | even
deriving DecidableEq

/-- The nine sampling positions of each stop set (ramp.ts). -/
def positionsOf : StopSet → List ℚ
  | .even => [0, 1/8, 1/4, 3/8, 1/2, 5/8, 3/4, 7/8, 1]
  | .figma => [0, 13/100, 1/4, 38/100, 1/2, 63/100, 3/4, 88/100, 1]

/-- The nine ramp steps, in the order the source loops over them. -/
def rampSteps : List Nat := [100, 200, 300, 400, 500, 600, 700, 800, 900]

/-- Association-list read of a JS object property. -/
def jget {α β : Type} [DecidableEq α] : List (α × β) → α → Option β
  | [], _ => none
  | (k', v) :: rest, k => if k' = k then some v else jget rest k

/-- Association-list read with a default (for properties the TS types
guarantee to be present). -/
def jgetD {α β : Type} [DecidableEq α] (o : List (α × β)) (k : α) (d : β) : β :=
  (jget o k).getD d

/-- Association-list write of a JS object property: update in place when the
key exists, append otherwise (JS insertion-order semantics). -/
def jset {α β : Type} [DecidableEq α] : List (α × β) → α → β → List (α × β)
  | [], k, v => [(k, v)]
  | (k', v') :: rest, k, v =>
    if k' = k then (k', v) :: rest else (k', v') :: jset rest k v

/-- A `Ramp` object (`Record<RampStep, string>`), in insertion order. -/
abbrev Obj : Type := List (Nat × Str)

/-- The sampling loop of `generateRamp9`: for each step/position pair, sample
the refined gradient, convert with `toHexSafe`, and store under the step. -/
def rampLoop {Color : Type} (M : Culori Color) (li ba da : Oklch) :
    List (Nat × ℚ) → Obj → Except Str Obj
  | [], out => .ok out
  | (s, t) :: rest, out =>
    match toHexSafe M (sampleRefined li ba da t) with
    | .error e => .error e
    | .ok hx => rampLoop M li ba da rest (jset out s hx)

/-- Source `generateRamp9` (ramp.ts). -/
def generateRamp9 {Color : Type} (M : Culori Color) (baseHex : Str) (stopSet : StopSet) :
    Except Str Obj :=
  match M.parse baseHex with
  | none => .error (str "Invalid hex color")
  | some p =>
    match sampleWhiteBaseBlack M baseHex (1 / 4) with
    | .error e => .error e
    | .ok lightEndpoint =>
      match sampleWhiteBaseBlack M baseHex (3 / 4) with
      | .error e => .error e
      | .ok darkEndpoint =>
        match rampLoop M lightEndpoint (M.toOklch p) darkEndpoint
            (rampSteps.zip (positionsOf stopSet)) [] with
        | .error e => .error e
        | .ok out =>
          match normalizeHex M baseHex with
          | .error e => .error e
          | .ok n => .ok (jset out 500 n)

/-- Source `PaletteColor` (tokens.ts). -/
structure PaletteColor where
  id : Str
  label : Str
  hex : Str

/-- Source `ThemeName` (tokens.ts). -/
inductive ThemeName : Type
  | light
  | dark
deriving DecidableEq

/-- Source `ThemeMapping` (tokens.ts): six semantic role slots, each holding
a palette id. -/
structure ThemeMapping where
  surfacePrimary : Str
  surfaceInverse : Str
  textPrimary : Str
  textInverse : Str
  accentPrimary : Str
  accentInverse : Str

/-- A `Record<ThemeName, ThemeMapping>`. -/
structure ThemeMappingPair where
  light : ThemeMapping
  dark : ThemeMapping

/-- A `RampMap` (`Record<string, Ramp>`). -/
abbrev RampMap : Type := List (Str × Obj)

/-- A string-keyed record of declarations, in insertion order. -/
abbrev SObj : Type := List (Str × Str)

/-- The `json` part of a `TokenBundle` (theme records flattened into one
field per theme name). -/
structure TokenJson where
  primitives : SObj
  themesLight : SObj
  themesDark : SObj
  componentsLight : SObj
  componentsDark : SObj

/-- Source `TokenBundle` (tokens.ts). -/
structure TokenBundle where
  css : Str
  json : TokenJson

/-- Decimal digits of a ramp step (template-literal interpolation). -/
def stepStr (n : Nat) : Str := (Nat.repr n).toList

/-- Source `varNamePrimitive` (tokens.ts). -/
def varNamePrimitive (id : Str) (step : Nat) : Str :=
  str "--c-" ++ id ++ str "-" ++ stepStr step

/-- The template literal `var(${varNamePrimitive(id, step)})`. -/
def vRef (id : Str) (step : Nat) : Str :=
  str "var(" ++ varNamePrimitive id step ++ str ")"

/-- Source `varLine` (tokens.ts). -/
def varLine (name value : Str) : Str :=
  str "  " ++ name ++ str ": " ++ value ++ str ";"

/-- The inner primitive loop of `buildTokens`:
`primitives[varNamePrimitive(c.id, s)] = ramp[s]` for each step. -/
def addRampPrimitives (id : Str) (ramp : Obj) : List Nat → SObj → SObj
  | [], acc => acc
  | s :: rest, acc =>
    addRampPrimitives id ramp rest
      (jset acc (varNamePrimitive id s) (jgetD ramp s (str "")))

/-- The primitive layer of `buildTokens`: palette entries whose id has no
ramp are skipped (`if (!ramp) continue`). -/
def buildPrimitives (ramps : RampMap) : List PaletteColor → SObj → SObj
  | [], acc => acc
  | c :: rest, acc =>
    match jget ramps c.id with
    | none => buildPrimitives ramps rest acc
    | some ramp => buildPrimitives ramps rest (addRampPrimitives c.id ramp rampSteps acc)

/-- The semantic layer of `buildTokens` for one theme, in the exact insertion
order of the source.  The JS code assigns eighteen pairwise-distinct keys to
an initially empty object, which yields exactly this ordered record; the three
`--link*` entries are read back from the object under construction. -/
def themeObj (theme : ThemeName) (m : ThemeMapping) : SObj :=
  let surfacePrimaryStep : Nat := if theme = ThemeName.light then 100 else 900
  let surfaceSecondaryStep : Nat := if theme = ThemeName.light then 200 else 800
  let textPrimaryStep : Nat := if theme = ThemeName.light then 900 else 100
  let textSecondaryStep : Nat := if theme = ThemeName.light then 700 else 200
  let textMutedStep : Nat := if theme = ThemeName.light then 600 else 400
  let textDisabledStep : Nat := if theme = ThemeName.light then 400 else 500
  let borderDefaultStep : Nat := if theme = ThemeName.light then 300 else 700
  let borderStrongStep : Nat := if theme = ThemeName.light then 400 else 600
  let borderSubtleStep : Nat := if theme = ThemeName.light then 200 else 800
  let accentDefaultStep : Nat := 500
  let accentHoverStep : Nat := 600
  let accentActiveStep : Nat := 700
  let base : SObj :=
    [(str "--surface-primary", vRef m.surfacePrimary surfacePrimaryStep),
     (str "--surface-secondary", vRef m.surfacePrimary surfaceSecondaryStep),
     (str "--surface-inverse",
       vRef m.surfaceInverse (if theme = ThemeName.light then 900 else 100)),
     (str "--text-primary", vRef m.textPrimary textPrimaryStep),
     (str "--text-secondary", vRef m.textPrimary textSecondaryStep),
     (str "--text-muted", vRef m.textPrimary textMutedStep),
     (str "--text-disabled", vRef m.textPrimary textDisabledStep),
     (str "--text-inverse",
       vRef m.textInverse (if theme = ThemeName.light then 100 else 900)),
     (str "--border-default", vRef m.textPrimary borderDefaultStep),
     (str "--border-strong", vRef m.textPrimary borderStrongStep),
     (str "--border-subtle", vRef m.textPrimary borderSubtleStep),
     (str "--accent", vRef m.accentPrimary accentDefaultStep),
     (str "--accent-hover", vRef m.accentPrimary accentHoverStep),
     (str "--accent-active", vRef m.accentPrimary accentActiveStep),
     (str "--accent-inverse", vRef m.accentInverse accentDefaultStep)]
  base ++
    [(str "--link", jgetD base (str "--accent") (str "")),
     (str "--link-hover", jgetD base (str "--accent-hover") (str "")),
     (str "--link-active", jgetD base (str "--accent-active") (str ""))]

/-- The component layer of `buildTokens` for one theme: every value is read
back from that theme's semantic record (aliasing), except the literal
`transparent`; insertion order of the source. -/
def componentsObj (th : SObj) : SObj :=
  [(str "--btn-primary-bg", jgetD th (str "--surface-inverse") (str "")),
   (str "--btn-primary-text", jgetD th (str "--text-inverse") (str "")),
   (str "--btn-primary-bg-hover", jgetD th (str "--accent-hover") (str "")),
   (str "--btn-primary-bg-active", jgetD th (str "--accent-active") (str "")),
   (str "--btn-primary-bg-disabled", jgetD th (str "--surface-secondary") (str "")),
   (str "--btn-primary-text-disabled", jgetD th (str "--text-disabled") (str "")),
   (str "--btn-secondary-bg", str "transparent"),
   (str "--btn-secondary-text", jgetD th (str "--text-primary") (str "")),
   (str "--btn-secondary-border", jgetD th (str "--border-default") (str "")),
   (str "--btn-secondary-bg-hover", jgetD th (str "--surface-secondary") (str "")),
   (str "--btn-secondary-bg-active", jgetD th (str "--surface-secondary") (str "")),
   (str "--btn-secondary-text-disabled", jgetD th (str "--text-disabled") (str "")),
   (str "--btn-secondary-border-disabled", jgetD th (str "--border-subtle") (str "")),
   (str "--input-bg", jgetD th (str "--surface-primary") (str "")),
   (str "--input-text", jgetD th (str "--text-primary") (str "")),
   (str "--input-placeholder", jgetD th (str "--text-muted") (str "")),
   (str "--input-border", jgetD th (str "--border-default") (str "")),
   (str "--input-border-focus", jgetD th (str "--accent") (str "")),
   (str "--input-bg-disabled", jgetD th (str "--surface-secondary") (str "")),
   (str "--input-text-disabled", jgetD th (str "--text-disabled") (str ""))]

/-- Model of `Array.prototype.sort` with the `localeCompare` comparator:
lexicographic sort (see the header note on the key alphabet). -/
def sortStrs (l : List Str) : List Str := List.insertionSort (fun a b => a ≤ b) l

/-- Model of `lines.join("\n")`. -/
def joinLines : List Str → Str
  | [] => []
  | [l] => l
  | l :: ls => l ++ '\n' :: joinLines ls

/-- The `lines.push` sequence of one `[data-theme="…"]` block (tokens.ts). -/
def themeBlockLines (name : Str) (sem comp : SObj) : List Str :=
  [str "[data-theme=\"" ++ name ++ str "\"] \x7b", str "  /* Semantic tokens */"]
    ++ sem.map (fun kv => varLine kv.1 kv.2)
    ++ [str "", str "  /* Component tokens */"]
    ++ comp.map (fun kv => varLine kv.1 kv.2)
    ++ [str "\x7d", str ""]

/-- Source `buildTokens` (tokens.ts). -/
def buildTokens (palette : List PaletteColor) (ramps : RampMap)
    (mapping : ThemeMappingPair) : TokenBundle :=
  let primitives := buildPrimitives ramps palette []
  let thL := themeObj ThemeName.light mapping.light
  let thD := themeObj ThemeName.dark mapping.dark
  let cmL := componentsObj thL
  let cmD := componentsObj thD
  let primitiveKeys := sortStrs (primitives.map Prod.fst)
  let lines : List Str :=
    ([str ":root \x7b", str "  /* Primitive ramps */"]
      ++ primitiveKeys.map (fun k => varLine k (jgetD primitives k (str "")))
      ++ [str "\x7d", str ""])
    ++ (themeBlockLines (str "light") thL cmL ++ themeBlockLines (str "dark") thD cmD)
  { css := joinLines lines
    json := { primitives := primitives, themesLight := thL, themesDark := thD,
              componentsLight := cmL, componentsDark := cmD } }

/-- Spec-side rendering of one declaration
(`  <key>: <value>;`) — §4.3 Serialization. -/
def declLine (kv : Str × Str) : Str :=
  str "  " ++ kv.1 ++ str ": " ++ kv.2 ++ str ";"

/-- Spec-side `:root` block: "one `:root { … }` block listing all primitive
declarations sorted lexicographically by key" (plus the fixed comment line
the block format carries and the blank separator line after the block). -/
def specRootLines (prims : SObj) : List Str :=
  [str ":root \x7b", str "  /* Primitive ramps */"]
    ++ (sortStrs (prims.map Prod.fst)).map (fun k => declLine (k, jgetD prims k (str "")))
    ++ [str "\x7d", str ""]

/-- Spec-side theme block: "one `[data-theme="<name>"] { … }` block per theme
containing semantic declarations then component declarations, each
declaration in insertion order". -/
def specThemeLines (name : Str) (sem comp : SObj) : List Str :=
  ([str "[data-theme=\"" ++ name ++ str "\"] \x7b", str "  /* Semantic tokens */"]
      ++ sem.map declLine)
    ++ ([str "", str "  /* Component tokens */"] ++ comp.map declLine
      ++ [str "\x7d", str ""])

/-- Spec-side CSS layout of a token bundle: the root block, then the light
block, then the dark block, joined by newlines. -/
def cssLayoutSpec (j : TokenJson) : Str :=
  joinLines (specRootLines j.primitives) ++
    '\n' :: (joinLines (specThemeLines (str "light") j.themesLight j.componentsLight) ++
      '\n' :: joinLines (specThemeLines (str "dark") j.themesDark j.componentsDark))


/-! ### Concrete fixtures used by witnesses and counterexamples -/

/-- A trivial instantiation of the culori abstraction (every string parses,
every conversion yields the all-zero color), used to exercise the engine on
concrete inputs. -/
def testCulori : Culori Unit :=
  ⟨fun _ => some (), fun _ => ⟨some 0, some 0, some 0⟩, fun _ => some (),
    fun _ => some ⟨0, 0, 0⟩⟩

/-- The ramp `generateRamp9 testCulori "#123456"` produces (for either stop
set): all-black steps with the step-500 override. -/
def testRamp : Obj :=
  [(100, str "#000000"), (200, str "#000000"), (300, str "#000000"),
   (400, str "#000000"), (500, str "#123456"), (600, str "#000000"),
   (700, str "#000000"), (800, str "#000000"), (900, str "#000000")]

/-- One-color palette fixture. -/
def cexPalette : List PaletteColor := [⟨str "blue", str "Blue", str "#0000ff"⟩]

/-- A ramp object for the fixture palette. -/
def cexRamp : Obj := rampSteps.map (fun s => (s, str "#0000ff"))

/-- Ramp map holding only the `blue` ramp. -/
def cexRamps : RampMap := [(str "blue", cexRamp)]

/-- Theme mapping sending every slot to `blue`. -/
def blueMapping : ThemeMapping :=
  ⟨str "blue", str "blue", str "blue", str "blue", str "blue", str "blue"⟩

/-- Both themes mapped entirely to `blue`. -/
def cexMapping : ThemeMappingPair := ⟨blueMapping, blueMapping⟩

/-- A light mapping whose `textPrimary` names an id (`ghost`) that has no
ramp in `cexRamps`. -/
def ghostMapping : ThemeMappingPair :=
  ⟨⟨str "blue", str "blue", str "ghost", str "blue", str "blue", str "blue"⟩,
    blueMapping⟩

/-- A palette color whose id has no ramp in `cexRamps`. -/
def ghostColor : PaletteColor := ⟨str "ghost", str "Ghost", str "#111111"⟩

/-! ### Association-list lemmas -/

theorem jget_jset_self {α β : Type} [DecidableEq α] :
    ∀ (o : List (α × β)) (k : α) (v : β), jget (jset o k v) k = some v := by
  intro o k v
  induction o with
  | nil => simp [jget, jset]
  | cons kv rest ih =>
    by_cases h : kv.1 = k
    · simp [jget, jset, h]
    · simpa [jget, jset, h] using ih

theorem jget_jset_ne {α β : Type} [DecidableEq α] :
    ∀ (o : List (α × β)) (k : α) (v : β) (x : α), k ≠ x →
      jget (jset o k v) x = jget o x := by
  intro o k v k' hne
  induction o with
  | nil => simp [jget, jset, hne]
  | cons kv rest ih =>
    have hne' : ¬(k = k') := hne
    by_cases h : kv.1 = k
    · simp [jget, jset, h, hne']
    · have hne2 : ¬(k' = k) := fun hh => hne' hh.symm
      by_cases h' : kv.1 = k' <;> simp [jget, jset, h, h', ih, hne2]

theorem jset_append_of_none {α β : Type} [DecidableEq α] :
    ∀ (o : List (α × β)) (k : α) (v : β), jget o k = none →
      jset o k v = o ++ [(k, v)] := by
  intro o k v h
  induction o with
  | nil => simp [jset]
  | cons kv rest ih =>
    by_cases hk : kv.1 = k
    · simp [jget, hk] at h
    · simp [jget, hk] at h
      simp [jset, hk, ih h]

theorem jget_append {α β : Type} [DecidableEq α] :
    ∀ (o₁ o₂ : List (α × β)) (k : α),
      jget (o₁ ++ o₂) k = ((jget o₁ k).orElse (fun _ => jget o₂ k)) := by
  intro o₁ o₂ k
  induction o₁ with
  | nil => simp [jget]
  | cons kv rest ih =>
    by_cases h : kv.1 = k <;> simp [jget, h, ih]

theorem map_fst_jset {α β : Type} [DecidableEq α] :
    ∀ (o : List (α × β)) (k : α) (v : β),
      (jset o k v).map Prod.fst =
        if (jget o k).isSome then o.map Prod.fst else o.map Prod.fst ++ [k] := by
  intro o k v
  induction o with
  | nil => simp [jget, jset]
  | cons kv rest ih =>
    by_cases h : kv.1 = k
    · simp [jget, jset, h]
    · simp only [jget, jset, h, if_neg h, if_false, List.map_cons, ih]
      by_cases h2 : (jget rest k).isSome <;> simp [h2]

theorem mem_jset {α β : Type} [DecidableEq α] :
    ∀ (o : List (α × β)) (k : α) (v : β) (kv : α × β),
      kv ∈ jset o k v → kv = (k, v) ∨ kv ∈ o := by
  intro o k v kv h
  induction o with
  | nil => simpa [jset] using h
  | cons kv' rest ih =>
    by_cases hk : kv'.1 = k
    · rcases h' : kv' with ⟨a, b⟩
      rw [h'] at hk h
      subst hk
      simp only [jset, if_pos rfl] at h
      rcases List.mem_cons.mp h with h | h
      · exact Or.inl h
      · exact Or.inr (List.mem_cons_of_mem _ h)
    · rcases h' : kv' with ⟨a, b⟩
      rw [h'] at hk h
      simp only [jset, if_neg hk] at h
      rcases List.mem_cons.mp h with h | h
      · exact Or.inr (h ▸ List.mem_cons_self _ _)
      · rcases ih h with h | h
        · exact Or.inl h
        · exact Or.inr (List.mem_cons_of_mem _ h)

theorem jget_some_of_mem_fst {α β : Type} [DecidableEq α] :
    ∀ (o : List (α × β)) (k : α), k ∈ o.map Prod.fst → (jget o k).isSome := by
  intro o k h
  induction o with
  | nil => simp at h
  | cons kv rest ih =>
    by_cases hk : kv.1 = k
    · simp [jget, hk]
    · simp only [List.map_cons, List.mem_cons] at h
      rcases h with h | h
      · exact absurd h.symm hk
      · simpa [jget, hk] using ih h

/-! ### String-model lemmas -/

theorem dropWhile_eq_self_of_none {p : Char → Bool} :
    ∀ l : Str, (∀ c ∈ l, p c = false) → l.dropWhile p = l := by
  intro l h
  cases l with
  | nil => rfl
  | cons a as => simp [List.dropWhile_cons, h a (List.mem_cons_self _ _)]

theorem jsTrim_eq_self {l : Str} (h : ∀ c ∈ l, isWS c = false) : jsTrim l = l := by
  unfold jsTrim
  rw [dropWhile_eq_self_of_none l h,
    dropWhile_eq_self_of_none l.reverse (fun c hc => h c (List.mem_reverse.mp hc)),
    List.reverse_reverse]

theorem jsToLower_eq_self {l : Str} (h : ∀ c ∈ l, lowerChar c = c) : jsToLower l = l := by
  unfold jsToLower
  induction l with
  | nil => rfl
  | cons a as ih =>
    rw [List.map_cons, h a (List.mem_cons_self _ _),
      ih (fun c hc => h c (List.mem_cons_of_mem _ hc))]

theorem isHexLower_char_facts {c : Char} (h : isHexLower c = true) :
    lowerChar c = c ∧ isWS c = false := by
  simp only [isHexLower, Bool.or_eq_true, Bool.and_eq_true, decide_eq_true_eq] at h
  have hge : ('0' : Char) ≤ c := by
    rcases h with ⟨h1, _⟩ | ⟨h1, _⟩
    · exact h1
    · exact le_trans (by decide) h1
  constructor
  · have hAZ : ¬(('A' ≤ c && c ≤ 'Z') = true) := by
      intro hAZ
      simp only [Bool.and_eq_true, decide_eq_true_eq] at hAZ
      rcases h with ⟨_, h2⟩ | ⟨h1, _⟩
      · exact absurd (le_trans hAZ.1 h2) (by decide)
      · exact absurd (le_trans h1 hAZ.2) (by decide)
    simp [lowerChar, hAZ]
  · have hws : ∀ w : Char, w < '0' → decide (c = w) = false := fun w hw =>
      decide_eq_false (fun he => absurd (he ▸ hge) (not_le.mpr hw))
    simp [isWS, hws ' ' (by decide), hws '\t' (by decide), hws '\n' (by decide),
      hws '\r' (by decide)]

/-- Characters of a string matching `#[0-9a-f]{n}` are untouched by trim and
toLowerCase. -/
theorem hexlike_char_facts {l : Str} {rest : Str} (hshape : l = '#' :: rest)
    (hall : rest.all isHexLower = true) :
    ∀ c ∈ l, lowerChar c = c ∧ isWS c = false := by
  intro c hc
  rw [hshape] at hc
  rcases List.mem_cons.mp hc with h | h
  · subst h; exact ⟨rfl, rfl⟩
  · exact isHexLower_char_facts (List.all_eq_true.mp hall c h)

theorem isHex6_shape {l : Str} (h : isHex6 l = true) :
    ∃ rest, l = '#' :: rest ∧ rest.length = 6 ∧ rest.all isHexLower = true := by
  cases l with
  | nil => simp [isHex6] at h
  | cons c rest =>
    simp only [isHex6, Bool.and_eq_true, beq_iff_eq] at h
    exact ⟨rest, by rw [h.1.1], h.1.2, h.2⟩

theorem canon_eq_self_of_isHex6 {l : Str} (h : isHex6 l = true) :
    jsToLower (jsTrim l) = l := by
  obtain ⟨rest, hshape, _, hall⟩ := isHex6_shape h
  have hfacts := hexlike_char_facts hshape hall
  rw [jsTrim_eq_self (fun c hc => (hfacts c hc).2),
    jsToLower_eq_self (fun c hc => (hfacts c hc).1)]

theorem isHex3_false_of_isHex6 {l : Str} (h : isHex6 l = true) : isHex3 l = false := by
  obtain ⟨rest, hshape, hlen, _⟩ := isHex6_shape h
  subst hshape
  simp [isHex3, hlen]

theorem isHexLower_hexChar : ∀ i : Fin 16, isHexLower (hexChars.get i) = true := by
  decide

theorem isHexLower_hexDigit (n : Nat) : isHexLower (hexDigit n) = true := by
  have hlen : hexChars.length = 16 := rfl
  have hlt : n % 16 < hexChars.length := by
    rw [hlen]
    exact Nat.mod_lt _ (by norm_num)
  have hd : hexDigit n = hexChars[n % 16] := by
    simp [hexDigit, List.getD_eq_getElem?_getD, List.getElem?_eq_getElem hlt]
  rw [hd]
  exact isHexLower_hexChar ⟨n % 16, by rw [hlen] at hlt; exact hlt⟩

theorem isHex6_serializeHexRgb (c : Rgb) : isHex6 (serializeHexRgb c) = true := by
  simp [serializeHexRgb, isHex6, hexByte, isHexLower_hexDigit]

theorem serializeHexRgb_shape (c : Rgb) :
    ∃ rest, serializeHexRgb c = '#' :: rest ∧ rest.all isHexLower = true := by
  obtain ⟨rest, hshape, _, hall⟩ := isHex6_shape (isHex6_serializeHexRgb c)
  exact ⟨rest, hshape, hall⟩

/-! ### normalizeHex lemmas -/

/-- A string that canonicalizes to a 6-digit hex form is returned
canonicalized, for any positive fuel. -/
theorem normalizeHexF_ok_of_isHex6 {Color : Type} (M : Culori Color) (fuel : Nat)
    {s : Str} (h6 : isHex6 (jsToLower (jsTrim s)) = true) :
    normalizeHexF M (fuel + 1) s = .ok (jsToLower (jsTrim s)) := by
  simp [normalizeHexF, isHex3_false_of_isHex6 h6, h6]

/-- The source recursion terminates within the modelled fuel: any fuel of at
least two computes the same result, so `normalizeHex`'s fuel of two is not a
semantic restriction. -/
theorem normalizeHexF_fuel_independent {Color : Type} (M : Culori Color)
    (fuel : Nat) (hex : Str) :
    normalizeHexF M (fuel + 2) hex = normalizeHex M hex := by
  show normalizeHexF M (fuel + 1 + 1) hex = normalizeHexF M (1 + 1) hex
  rw [normalizeHexF]
  rw [normalizeHexF]
  by_cases h3 : isHex3 (jsToLower (jsTrim hex)) = true
  · simp only [h3, if_true]
  · simp only [if_neg h3]
    by_cases h6 : isHex6 (jsToLower (jsTrim hex)) = true
    · simp only [h6, if_true]
    · simp only [if_neg h6]
      cases hp : M.parse (jsToLower (jsTrim hex)) with
      | none => simp only [hp]
      | some p =>
        simp only [hp]
        cases hr : M.toRgb p with
        | none => rfl
        | some rgb =>
          have hc6 : isHex6 (jsToLower (jsTrim (serializeHexRgb rgb))) = true := by
            rw [canon_eq_self_of_isHex6 (isHex6_serializeHexRgb rgb)]
            exact isHex6_serializeHexRgb rgb
          have h1 := @normalizeHexF_ok_of_isHex6 Color M fuel (serializeHexRgb rgb) hc6
          have h2 := @normalizeHexF_ok_of_isHex6 Color M 0 (serializeHexRgb rgb) hc6
          show normalizeHexF M (fuel + 1) (serializeHexRgb rgb) =
            normalizeHexF M (0 + 1) (serializeHexRgb rgb)
          rw [h1, h2]

/-- Every success of `normalizeHex` matches `#[0-9a-f]{6}`. -/
theorem normalizeHexF_hex6 {Color : Type} (M : Culori Color) :
    ∀ (fuel : Nat) (hex v : Str), normalizeHexF M fuel hex = .ok v → isHex6 v = true := by
  intro fuel
  induction fuel with
  | zero => intro hex v h; simp [normalizeHexF] at h
  | succ n ih =>
    intro hex v h
    rw [normalizeHexF] at h
    by_cases h3 : isHex3 (jsToLower (jsTrim hex)) = true
    · rw [if_pos h3] at h
      simp only [Except.ok.injEq] at h
      cases hc : jsToLower (jsTrim hex) with
      | nil => rw [hc] at h3; simp [isHex3] at h3
      | cons c rest =>
        rw [hc] at h3 h
        simp only [isHex3, Bool.and_eq_true, beq_iff_eq] at h3
        obtain ⟨⟨hc1, hlen⟩, hall⟩ := h3
        obtain ⟨a, b, d, hrest⟩ := List.length_eq_three.mp (by exact_mod_cast hlen)
        subst hrest
        simp only [List.all_cons, List.all_nil, Bool.and_eq_true] at hall
        simp only [expand3] at h
        subst h
        simp [isHex6, List.all_cons, hall.1, hall.2.1, hall.2.2.1]
    · rw [if_neg h3] at h
      by_cases h6 : isHex6 (jsToLower (jsTrim hex)) = true
      · rw [if_pos h6] at h
        simp only [Except.ok.injEq] at h
        subst h
        exact h6
      · rw [if_neg h6] at h
        cases hp : M.parse (jsToLower (jsTrim hex)) with
        | none => simp only [hp] at h; exact Except.noConfusion h
        | some p =>
          simp only [hp] at h
          cases hr : M.toRgb p with
          | none => simp only [hr, Option.map_none] at h; exact Except.noConfusion h
          | some rgb =>
            simp only [hr, Option.map_some] at h
            exact ih _ _ h

theorem normalizeHex_hex6 {Color : Type} (M : Culori Color) {hex v : Str}
    (h : normalizeHex M hex = .ok v) : isHex6 v = true :=
  normalizeHexF_hex6 M 2 hex v h

theorem toHexSafe_hex6 {Color : Type} (M : Culori Color) {c : Oklch} {v : Str}
    (h : toHexSafe M c = .ok v) : isHex6 v = true := by
  unfold toHexSafe at h
  cases hc : M.clampGamut c with
  | none => simp only [hc] at h; exact Except.noConfusion h
  | some clamped =>
    simp only [hc] at h
    cases hr : M.toRgb clamped with
    | none => simp only [hr] at h; exact Except.noConfusion h
    | some rgb =>
      simp only [hr] at h
      exact normalizeHex_hex6 M h

/-! ### Hue arithmetic lemmas -/

theorem jsMod360_bounds (a : ℚ) : -360 < jsMod a 360 ∧ jsMod a 360 < 360 := by
  have ha : a = 360 * (a / 360) := by field_simp
  unfold jsMod ratTrunc
  by_cases hq : 0 ≤ a / 360
  · rw [if_pos hq]
    constructor <;> nlinarith [Int.floor_le (a / 360), Int.lt_floor_add_one (a / 360)]
  · rw [if_neg hq]
    constructor <;> nlinarith [Int.le_ceil (a / 360), Int.ceil_lt_add_one (a / 360)]

theorem wrapHue_mem (h : ℚ) : 0 ≤ wrapHue h ∧ wrapHue h < 360 := by
  simp only [wrapHue]
  obtain ⟨h1, h2⟩ := jsMod360_bounds h
  split_ifs with hx <;> constructor <;> linarith

theorem shortestHueDelta_mem (a b : ℚ) :
    -180 ≤ shortestHueDelta a b ∧ shortestHueDelta a b ≤ 180 := by
  simp only [shortestHueDelta]
  obtain ⟨h1, h2⟩ := jsMod360_bounds (b - a)
  split_ifs <;> constructor <;> linarith

/-! ### Ramp-loop lemmas -/

theorem rampLoop_preserve {Color : Type} {M : Culori Color} {li ba da : Oklch} :
    ∀ (l : List (Nat × ℚ)) (acc out : Obj) (k : Nat),
      rampLoop M li ba da l acc = .ok out → k ∉ l.map Prod.fst →
      jget out k = jget acc k := by
  intro l
  induction l with
  | nil =>
    intro acc out k h hk
    simp only [rampLoop, Except.ok.injEq] at h
    rw [← h]
  | cons st rest ih =>
    intro acc out k h hk
    rcases st with ⟨s, t⟩
    simp only [rampLoop] at h
    cases hx : toHexSafe M (sampleRefined li ba da t) with
    | error e => simp only [hx] at h; exact Except.noConfusion h
    | ok v =>
      simp only [hx] at h
      simp only [List.map_cons, List.mem_cons, not_or] at hk
      rw [ih _ _ _ h hk.2]
      exact jget_jset_ne acc s v k (fun he => hk.1 he.symm)

theorem rampLoop_lookup {Color : Type} {M : Culori Color} {li ba da : Oklch} :
    ∀ (l : List (Nat × ℚ)) (acc out : Obj),
      rampLoop M li ba da l acc = .ok out → (l.map Prod.fst).Nodup →
      ∀ s t, (s, t) ∈ l → jget acc s = none →
        ∃ hx, toHexSafe M (sampleRefined li ba da t) = .ok hx ∧ jget out s = some hx := by
  intro l
  induction l with
  | nil => intro acc out h hnd s t hmem hnone; simp at hmem
  | cons st rest ih =>
    intro acc out h hnd s t hmem hnone
    rcases st with ⟨s0, t0⟩
    simp only [rampLoop] at h
    cases hx : toHexSafe M (sampleRefined li ba da t0) with
    | error e => simp only [hx] at h; exact Except.noConfusion h
    | ok v =>
      simp only [hx] at h
      simp only [List.map_cons, List.nodup_cons] at hnd
      rcases List.mem_cons.mp hmem with heq | hmem'
      · have hs : s = s0 := congrArg Prod.fst heq
        have ht : t = t0 := congrArg Prod.snd heq
        subst hs; subst ht
        refine ⟨v, hx, ?_⟩
        rw [rampLoop_preserve rest (jset acc s v) out s h hnd.1]
        exact jget_jset_self acc s v
      · have hs_ne : s ≠ s0 := by
          intro he
          subst he
          exact hnd.1 (List.mem_map.mpr ⟨(s, t), hmem', rfl⟩)
        refine ih (jset acc s0 v) out h hnd.2 s t hmem' ?_
        rw [jget_jset_ne acc s0 v s (fun he => hs_ne he.symm)]
        exact hnone

theorem rampLoop_keys_values {Color : Type} {M : Culori Color} {li ba da : Oklch} :
    ∀ (l : List (Nat × ℚ)) (acc out : Obj),
      rampLoop M li ba da l acc = .ok out → (l.map Prod.fst).Nodup →
      (∀ s, s ∈ l.map Prod.fst → jget acc s = none) →
      out.map Prod.fst = acc.map Prod.fst ++ l.map Prod.fst ∧
        ∀ kv, kv ∈ out → kv ∈ acc ∨
          ∃ t, toHexSafe M (sampleRefined li ba da t) = .ok kv.2 := by
  intro l
  induction l with
  | nil =>
    intro acc out h hnd hfresh
    simp only [rampLoop, Except.ok.injEq] at h
    subst h
    exact ⟨by simp, fun kv hkv => Or.inl hkv⟩
  | cons st rest ih =>
    intro acc out h hnd hfresh
    rcases st with ⟨s0, t0⟩
    simp only [rampLoop] at h
    cases hx : toHexSafe M (sampleRefined li ba da t0) with
    | error e => simp only [hx] at h; exact Except.noConfusion h
    | ok v =>
      simp only [hx] at h
      simp only [List.map_cons, List.nodup_cons] at hnd
      have hs0 : jget acc s0 = none :=
        hfresh s0 (by simp)
      have happ : jset acc s0 v = acc ++ [(s0, v)] := jset_append_of_none acc s0 v hs0
      have hfresh' : ∀ s, s ∈ rest.map Prod.fst → jget (jset acc s0 v) s = none := by
        intro s hs
        have hne : s0 ≠ s := fun he => hnd.1 (he ▸ hs)
        rw [jget_jset_ne acc s0 v s hne]
        exact hfresh s (by simp [hs])
      obtain ⟨hkeys, hvals⟩ := ih (jset acc s0 v) out h hnd.2 hfresh'
      constructor
      · rw [hkeys, happ]
        simp
      · intro kv hkv
        rcases hvals kv hkv with hin | hval
        · rw [happ] at hin
          rcases List.mem_append.mp hin with hin | hin
          · exact Or.inl hin
          · simp only [List.mem_singleton] at hin
            subst hin
            exact Or.inr ⟨t0, hx⟩
        · exact Or.inr hval

/-- Decomposition of a successful `generateRamp9` call into its stages. -/
theorem generateRamp9_ok_decomp {Color : Type} {M : Culori Color} {H : Str}
    {ss : StopSet} {r : Obj} (h : generateRamp9 M H ss = .ok r) :
    ∃ p li da out n, M.parse H = some p ∧
      sampleWhiteBaseBlack M H (1 / 4) = .ok li ∧
      sampleWhiteBaseBlack M H (3 / 4) = .ok da ∧
      rampLoop M li (M.toOklch p) da (rampSteps.zip (positionsOf ss)) [] = .ok out ∧
      normalizeHex M H = .ok n ∧ r = jset out 500 n := by
  unfold generateRamp9 at h
  cases hp : M.parse H with
  | none => simp only [hp] at h; exact Except.noConfusion h
  | some p =>
    simp only [hp] at h
    cases hli : sampleWhiteBaseBlack M H (1 / 4) with
    | error e => simp only [hli] at h; exact Except.noConfusion h
    | ok li =>
      simp only [hli] at h
      cases hda : sampleWhiteBaseBlack M H (3 / 4) with
      | error e => simp only [hda] at h; exact Except.noConfusion h
      | ok da =>
        simp only [hda] at h
        cases hloop : rampLoop M li (M.toOklch p) da
            (rampSteps.zip (positionsOf ss)) [] with
        | error e => simp only [hloop] at h; exact Except.noConfusion h
        | ok out =>
          simp only [hloop] at h
          cases hn : normalizeHex M H with
          | error e => simp only [hn] at h; exact Except.noConfusion h
          | ok n =>
            simp only [hn, Except.ok.injEq] at h
            exact ⟨p, li, da, out, n, rfl, rfl, rfl, hloop, rfl, h.symm⟩

/-! ### varNamePrimitive and buildPrimitives lemmas -/

theorem stepStr_len3 : ∀ s ∈ rampSteps, (stepStr s).length = 3 := by decide

theorem stepStr_inj_on :
    ∀ s ∈ rampSteps, ∀ t ∈ rampSteps, stepStr s = stepStr t → s = t := by decide

theorem varNamePrimitive_inj {a b : Str} {s t : Nat} (hs : s ∈ rampSteps)
    (ht : t ∈ rampSteps) (h : varNamePrimitive a s = varNamePrimitive b t) :
    a = b ∧ s = t := by
  unfold varNamePrimitive at h
  simp only [List.append_assoc] at h
  have h1 : a ++ (str "-" ++ stepStr s) = b ++ (str "-" ++ stepStr t) :=
    List.append_cancel_left h
  have hlen1 : (str "-").length = 1 := rfl
  have hlen : a.length = b.length := by
    have hc := congrArg List.length h1
    simp only [List.length_append, hlen1, stepStr_len3 s hs, stepStr_len3 t ht] at hc
    omega
  obtain ⟨ha, h2⟩ := List.append_inj h1 hlen
  exact ⟨ha, stepStr_inj_on s hs t ht (List.append_cancel_left h2)⟩

theorem jget_addRampPrimitives_ne (cid : Str) (ramp : Obj) (key : Str) :
    ∀ (ss : List Nat) (acc : SObj), (∀ s ∈ ss, varNamePrimitive cid s ≠ key) →
      jget (addRampPrimitives cid ramp ss acc) key = jget acc key := by
  intro ss
  induction ss with
  | nil => intro acc _; rfl
  | cons s rest ih =>
    intro acc h
    simp only [addRampPrimitives]
    rw [ih _ (fun x hx => h x (List.mem_cons_of_mem _ hx))]
    exact jget_jset_ne acc _ _ key (h s (List.mem_cons_self _ _))

theorem jget_buildPrimitives_missing (r : RampMap) (id : Str)
    (hid : jget r id = none) (s0 : Nat) (hs0 : s0 ∈ rampSteps) :
    ∀ (pal : List PaletteColor) (acc : SObj),
      jget acc (varNamePrimitive id s0) = none →
      jget (buildPrimitives r pal acc) (varNamePrimitive id s0) = none := by
  intro pal
  induction pal with
  | nil => intro acc h; exact h
  | cons c rest ih =>
    intro acc h
    simp only [buildPrimitives]
    cases hc : jget r c.id with
    | none => exact ih _ h
    | some ramp =>
      refine ih _ ?_
      rw [jget_addRampPrimitives_ne]
      · exact h
      · intro s hs heq
        obtain ⟨hid_eq, _⟩ := varNamePrimitive_inj hs hs0 heq
        rw [hid_eq] at hc
        rw [hid] at hc
        exact Option.noConfusion hc

theorem buildPrimitives_skip (r : RampMap) (c : PaletteColor)
    (h : jget r c.id = none) (p2 : List PaletteColor) :
    ∀ (p1 : List PaletteColor) (acc : SObj),
      buildPrimitives r (p1 ++ c :: p2) acc = buildPrimitives r (p1 ++ p2) acc := by
  intro p1
  induction p1 with
  | nil =>
    intro acc
    simp only [List.nil_append, buildPrimitives, h]
  | cons d rest ih =>
    intro acc
    simp only [List.cons_append, buildPrimitives]
    cases hd : jget r d.id with
    | none => exact ih _
    | some ramp => exact ih _

/-! ### CSS layout lemmas -/

theorem joinLines_append : ∀ (A B : List Str), A ≠ [] → B ≠ [] →
    joinLines (A ++ B) = joinLines A ++ '\n' :: joinLines B := by
  intro A
  induction A with
  | nil => intro B h _; exact absurd rfl h
  | cons a as ih =>
    intro B hA hB
    cases as with
    | nil =>
      cases B with
      | nil => exact absurd rfl hB
      | cons b bs => simp [joinLines]
    | cons a2 as2 =>
      have h1 : joinLines ((a :: a2 :: as2) ++ B) =
          a ++ '\n' :: joinLines ((a2 :: as2) ++ B) := by
        simp [joinLines]
      rw [h1, ih B (by simp) hB]
      simp [joinLines, List.append_assoc]

theorem joinLines_three (A B C : List Str) (hA : A ≠ []) (hB : B ≠ []) (hC : C ≠ []) :
    joinLines (A ++ (B ++ C)) =
      joinLines A ++ '\n' :: (joinLines B ++ '\n' :: joinLines C) := by
  have hBC : B ++ C ≠ [] := fun h => hB (List.append_eq_nil.mp h).1
  rw [joinLines_append A (B ++ C) hA hBC, joinLines_append B C hB hC]

theorem themeBlockLines_eq_spec (n : Str) (sem comp : SObj) :
    themeBlockLines n sem comp = specThemeLines n sem comp := by
  have hfun : declLine = (fun kv : Str × Str => varLine kv.1 kv.2) :=
    funext fun kv => rfl
  simp [themeBlockLines, specThemeLines, hfun, List.append_assoc]

theorem specThemeLines_ne_nil (n : Str) (sem comp : SObj) :
    specThemeLines n sem comp ≠ [] := by
  simp [specThemeLines]

/-! ### Claim theorems: ramp engine -/

/-- Claim C3: whenever `generateRamp9` succeeds (the base hex parses as a
color), for both stop sets the returned ramp maps step 500 to exactly the
`normalizeHex` of the base hex — the final override bypasses any rounding
drift of the OKLCH round trip. -/
theorem generateRamp9_identity_500 {Color : Type} (M : Culori Color) (H : Str)
    (ss : StopSet) (r : Obj) (h : generateRamp9 M H ss = .ok r) :
    ∃ v, normalizeHex M H = .ok v ∧ jget r 500 = some v := by
  obtain ⟨p, li, da, out, n, _, _, _, _, hn, hr⟩ := generateRamp9_ok_decomp h
  exact ⟨n, hn, by rw [hr]; exact jget_jset_self out 500 n⟩

theorem generateRamp9_identity_500_witness :
    jget testRamp 500 = some (str "#123456") := by
  obtain ⟨v, hv, hg⟩ :=
    generateRamp9_identity_500 testCulori (str "#123456") StopSet.figma testRamp
      (by with_unfolding_all rfl)
  have h2 : normalizeHex testCulori (str "#123456") = .ok (str "#123456") := rfl
  rw [hv] at h2
  rw [Except.ok.inj h2] at hg
  exact hg

/-- Claim C4: a successful `generateRamp9` returns an object with exactly the
nine keys 100..900 (in that order), and every value matches `#[0-9a-f]{6}`. -/
theorem generateRamp9_total_coverage {Color : Type} (M : Culori Color) (H : Str)
    (ss : StopSet) (r : Obj) (h : generateRamp9 M H ss = .ok r) :
    r.map Prod.fst = rampSteps ∧ ∀ kv ∈ r, isHex6 kv.2 = true := by
  obtain ⟨p, li, da, out, n, _, _, _, hloop, hn, hr⟩ := generateRamp9_ok_decomp h
  have hzipkeys : (rampSteps.zip (positionsOf ss)).map Prod.fst = rampSteps := by
    cases ss <;> decide
  have hnd : ((rampSteps.zip (positionsOf ss)).map Prod.fst).Nodup := by
    cases ss <;> decide
  have hfresh : ∀ s, s ∈ (rampSteps.zip (positionsOf ss)).map Prod.fst →
      jget ([] : Obj) s = none := fun s _ => rfl
  obtain ⟨hkeys, hvals⟩ := rampLoop_keys_values _ _ _ hloop hnd hfresh
  rw [hzipkeys] at hkeys
  simp only [List.map_nil, List.nil_append] at hkeys
  have h500 : (jget out 500).isSome := by
    apply jget_some_of_mem_fst
    rw [hkeys]
    decide
  constructor
  · rw [hr, map_fst_jset, if_pos h500, hkeys]
  · intro kv hkv
    rw [hr] at hkv
    rcases mem_jset out 500 n kv hkv with hkv' | hkv'
    · rw [hkv']
      exact normalizeHex_hex6 M hn
    · rcases hvals kv hkv' with hin | ⟨t, ht⟩
      · simp at hin
      · exact toHexSafe_hex6 M ht

theorem generateRamp9_total_coverage_witness :
    testRamp.map Prod.fst = rampSteps ∧ isHex6 (str "#123456") = true := by
  have h :=
    generateRamp9_total_coverage testCulori (str "#123456") StopSet.figma testRamp
      (by with_unfolding_all rfl)
  exact ⟨h.1, h.2 (500, str "#123456") (by decide)⟩

/-- Claim C10: the figma and even stop sets share the sampling positions 0,
1/4, 1/2, 3/4 and 1 at steps 100, 300, 500, 700, 900, so for the same base
hex both ramps agree exactly on those five steps. -/
theorem generateRamp9_stop_set_agreement {Color : Type} (M : Culori Color)
    (H : Str) (r1 r2 : Obj) (h1 : generateRamp9 M H StopSet.figma = .ok r1)
    (h2 : generateRamp9 M H StopSet.even = .ok r2) :
    ∀ s, s ∈ [100, 300, 500, 700, 900] → jget r1 s = jget r2 s := by
  obtain ⟨p, li, da, out1, n, hp, hli, hda, hloop1, hn, hr1⟩ :=
    generateRamp9_ok_decomp h1
  obtain ⟨p', li', da', out2, n', hp', hli', hda', hloop2, hn', hr2⟩ :=
    generateRamp9_ok_decomp h2
  have hpe : p = p' := by rw [hp] at hp'; exact Option.some.inj hp'
  subst hpe
  have hlie : li = li' := by rw [hli] at hli'; exact Except.ok.inj hli'
  subst hlie
  have hdae : da = da' := by rw [hda] at hda'; exact Except.ok.inj hda'
  subst hdae
  have hne : n = n' := by rw [hn] at hn'; exact Except.ok.inj hn'
  subst hne
  subst hr1
  subst hr2
  have hnd1 : ((rampSteps.zip (positionsOf StopSet.figma)).map Prod.fst).Nodup := by
    decide
  have hnd2 : ((rampSteps.zip (positionsOf StopSet.even)).map Prod.fst).Nodup := by
    decide
  intro s hs
  by_cases h500 : s = 500
  · subst h500
    rw [jget_jset_self, jget_jset_self]
  · rw [jget_jset_ne out1 500 n s (fun he => h500 he.symm),
      jget_jset_ne out2 500 n s (fun he => h500 he.symm)]
    fin_cases hs
    · obtain ⟨v1, hv1, hg1⟩ := rampLoop_lookup _ _ _ hloop1 hnd1 100 0 (by decide) rfl
      obtain ⟨v2, hv2, hg2⟩ := rampLoop_lookup _ _ _ hloop2 hnd2 100 0 (by decide) rfl
      rw [hg1, hg2]
      exact congrArg some (Except.ok.inj (hv1.symm.trans hv2))
    · obtain ⟨v1, hv1, hg1⟩ :=
        rampLoop_lookup _ _ _ hloop1 hnd1 300 (1 / 4)
          (List.mem_cons_of_mem _ (List.mem_cons_of_mem _ (List.mem_cons_self _ _))) rfl
      obtain ⟨v2, hv2, hg2⟩ :=
        rampLoop_lookup _ _ _ hloop2 hnd2 300 (1 / 4)
          (List.mem_cons_of_mem _ (List.mem_cons_of_mem _ (List.mem_cons_self _ _))) rfl
      rw [hg1, hg2]
      exact congrArg some (Except.ok.inj (hv1.symm.trans hv2))
    · exact absurd rfl h500
    · obtain ⟨v1, hv1, hg1⟩ :=
        rampLoop_lookup _ _ _ hloop1 hnd1 700 (3 / 4)
          (List.mem_cons_of_mem _ (List.mem_cons_of_mem _ (List.mem_cons_of_mem _ (List.mem_cons_of_mem _ (List.mem_cons_of_mem _ (List.mem_cons_of_mem _ (List.mem_cons_self _ _))))))) rfl
      obtain ⟨v2, hv2, hg2⟩ :=
        rampLoop_lookup _ _ _ hloop2 hnd2 700 (3 / 4)
          (List.mem_cons_of_mem _ (List.mem_cons_of_mem _ (List.mem_cons_of_mem _ (List.mem_cons_of_mem _ (List.mem_cons_of_mem _ (List.mem_cons_of_mem _ (List.mem_cons_self _ _))))))) rfl
      rw [hg1, hg2]
      exact congrArg some (Except.ok.inj (hv1.symm.trans hv2))
    · obtain ⟨v1, hv1, hg1⟩ := rampLoop_lookup _ _ _ hloop1 hnd1 900 1 (by decide) rfl
      obtain ⟨v2, hv2, hg2⟩ := rampLoop_lookup _ _ _ hloop2 hnd2 900 1 (by decide) rfl
      rw [hg1, hg2]
      exact congrArg some (Except.ok.inj (hv1.symm.trans hv2))

theorem generateRamp9_stop_set_agreement_witness :
    jget testRamp 100 = jget testRamp 100 :=
  generateRamp9_stop_set_agreement testCulori (str "#123456") testRamp testRamp
    (by with_unfolding_all rfl) (by with_unfolding_all rfl) 100 (by decide)

/-- Claim C7 counterexample: at endpoint hues 180 and 0 the computed signed
delta is exactly −180, which lies outside the claimed half-open interval
(−180, 180]. -/
theorem shortestHueDelta_boundary_cex :
    shortestHueDelta 180 0 = -180 ∧ ¬(-180 < shortestHueDelta (180 : ℚ) 0) := by
  constructor
  · with_unfolding_all decide
  · with_unfolding_all decide

/-- Claim C7 (amended): the signed hue delta between two endpoint hues always
lies in the closed interval [−180, 180] (−180 is attained when the hues are
exactly opposite, e.g. 180 and 0); every interpolated hue is the wrap of
`ah + dh·t` into [0, 360), and `wrapHue` indeed lands in [0, 360). -/
theorem hue_interpolation_ranges :
    (∀ a b : ℚ, -180 ≤ shortestHueDelta a b ∧ shortestHueDelta a b ≤ 180) ∧
    (∀ h : ℚ, 0 ≤ wrapHue h ∧ wrapHue h < 360) ∧
    (∀ a b : Oklch, ∀ t : ℚ, (lerpOklch a b t).h =
      some (wrapHue (wrapHue (a.h.getD 0) +
        shortestHueDelta (wrapHue (a.h.getD 0)) (wrapHue (b.h.getD 0)) * t))) :=
  ⟨shortestHueDelta_mem, wrapHue_mem, fun _ _ _ => rfl⟩

/-- Claim C8: `normalizeHex` is idempotent on every input it accepts, expands
the 3-digit shorthand `#abc` to `#aabbcc`, and every successful result
matches `#[0-9a-f]{6}`. -/
theorem normalizeHex_idempotent {Color : Type} (M : Culori Color) :
    (∀ x y, normalizeHex M x = .ok y → normalizeHex M y = .ok y) ∧
    normalizeHex M (str "#abc") = .ok (str "#aabbcc") ∧
    (∀ x y, normalizeHex M x = .ok y → isHex6 y = true) := by
  refine ⟨?_, rfl, fun x y h => normalizeHex_hex6 M h⟩
  intro x y h
  have h6 := normalizeHex_hex6 M h
  have hcanon := canon_eq_self_of_isHex6 h6
  have hok := @normalizeHexF_ok_of_isHex6 Color M 1 y (by rw [hcanon]; exact h6)
  rw [hcanon] at hok
  exact hok

theorem normalizeHex_idempotent_witness :
    normalizeHex testCulori (str "#aabbcc") = .ok (str "#aabbcc") ∧
    isHex6 (str "#aabbcc") = true :=
  ⟨(normalizeHex_idempotent testCulori).1 (str "#AABBCC") (str "#aabbcc") rfl,
    (normalizeHex_idempotent testCulori).2.2 (str "#AABBCC") (str "#aabbcc") rfl⟩

/-! ### Claim theorems: token builder -/

/-- Evaluation of the light semantic record. -/
theorem themeObj_light_eval (m : ThemeMapping) :
    themeObj ThemeName.light m =
      [(str "--surface-primary", vRef m.surfacePrimary 100),
       (str "--surface-secondary", vRef m.surfacePrimary 200),
       (str "--surface-inverse", vRef m.surfaceInverse 900),
       (str "--text-primary", vRef m.textPrimary 900),
       (str "--text-secondary", vRef m.textPrimary 700),
       (str "--text-muted", vRef m.textPrimary 600),
       (str "--text-disabled", vRef m.textPrimary 400),
       (str "--text-inverse", vRef m.textInverse 100),
       (str "--border-default", vRef m.textPrimary 300),
       (str "--border-strong", vRef m.textPrimary 400),
       (str "--border-subtle", vRef m.textPrimary 200),
       (str "--accent", vRef m.accentPrimary 500),
       (str "--accent-hover", vRef m.accentPrimary 600),
       (str "--accent-active", vRef m.accentPrimary 700),
       (str "--accent-inverse", vRef m.accentInverse 500),
       (str "--link", vRef m.accentPrimary 500),
       (str "--link-hover", vRef m.accentPrimary 600),
       (str "--link-active", vRef m.accentPrimary 700)] := rfl

/-- Evaluation of the dark semantic record. -/
theorem themeObj_dark_eval (m : ThemeMapping) :
    themeObj ThemeName.dark m =
      [(str "--surface-primary", vRef m.surfacePrimary 900),
       (str "--surface-secondary", vRef m.surfacePrimary 800),
       (str "--surface-inverse", vRef m.surfaceInverse 100),
       (str "--text-primary", vRef m.textPrimary 100),
       (str "--text-secondary", vRef m.textPrimary 200),
       (str "--text-muted", vRef m.textPrimary 400),
       (str "--text-disabled", vRef m.textPrimary 500),
       (str "--text-inverse", vRef m.textInverse 900),
       (str "--border-default", vRef m.textPrimary 700),
       (str "--border-strong", vRef m.textPrimary 600),
       (str "--border-subtle", vRef m.textPrimary 800),
       (str "--accent", vRef m.accentPrimary 500),
       (str "--accent-hover", vRef m.accentPrimary 600),
       (str "--accent-active", vRef m.accentPrimary 700),
       (str "--accent-inverse", vRef m.accentInverse 500),
       (str "--link", vRef m.accentPrimary 500),
       (str "--link-hover", vRef m.accentPrimary 600),
       (str "--link-active", vRef m.accentPrimary 700)] := rfl

/-- Evaluation of the light component record. -/
theorem componentsObj_light_eval (m : ThemeMapping) :
    componentsObj (themeObj ThemeName.light m) =
      [(str "--btn-primary-bg", vRef m.surfaceInverse 900),
       (str "--btn-primary-text", vRef m.textInverse 100),
       (str "--btn-primary-bg-hover", vRef m.accentPrimary 600),
       (str "--btn-primary-bg-active", vRef m.accentPrimary 700),
       (str "--btn-primary-bg-disabled", vRef m.surfacePrimary 200),
       (str "--btn-primary-text-disabled", vRef m.textPrimary 400),
       (str "--btn-secondary-bg", str "transparent"),
       (str "--btn-secondary-text", vRef m.textPrimary 900),
       (str "--btn-secondary-border", vRef m.textPrimary 300),
       (str "--btn-secondary-bg-hover", vRef m.surfacePrimary 200),
       (str "--btn-secondary-bg-active", vRef m.surfacePrimary 200),
       (str "--btn-secondary-text-disabled", vRef m.textPrimary 400),
       (str "--btn-secondary-border-disabled", vRef m.textPrimary 200),
       (str "--input-bg", vRef m.surfacePrimary 100),
       (str "--input-text", vRef m.textPrimary 900),
       (str "--input-placeholder", vRef m.textPrimary 600),
       (str "--input-border", vRef m.textPrimary 300),
       (str "--input-border-focus", vRef m.accentPrimary 500),
       (str "--input-bg-disabled", vRef m.surfacePrimary 200),
       (str "--input-text-disabled", vRef m.textPrimary 400)] := rfl

/-- Evaluation of the dark component record. -/
theorem componentsObj_dark_eval (m : ThemeMapping) :
    componentsObj (themeObj ThemeName.dark m) =
      [(str "--btn-primary-bg", vRef m.surfaceInverse 100),
       (str "--btn-primary-text", vRef m.textInverse 900),
       (str "--btn-primary-bg-hover", vRef m.accentPrimary 600),
       (str "--btn-primary-bg-active", vRef m.accentPrimary 700),
       (str "--btn-primary-bg-disabled", vRef m.surfacePrimary 800),
       (str "--btn-primary-text-disabled", vRef m.textPrimary 500),
       (str "--btn-secondary-bg", str "transparent"),
       (str "--btn-secondary-text", vRef m.textPrimary 100),
       (str "--btn-secondary-border", vRef m.textPrimary 700),
       (str "--btn-secondary-bg-hover", vRef m.surfacePrimary 800),
       (str "--btn-secondary-bg-active", vRef m.surfacePrimary 800),
       (str "--btn-secondary-text-disabled", vRef m.textPrimary 500),
       (str "--btn-secondary-border-disabled", vRef m.textPrimary 800),
       (str "--input-bg", vRef m.surfacePrimary 900),
       (str "--input-text", vRef m.textPrimary 100),
       (str "--input-placeholder", vRef m.textPrimary 400),
       (str "--input-border", vRef m.textPrimary 700),
       (str "--input-border-focus", vRef m.accentPrimary 500),
       (str "--input-bg-disabled", vRef m.surfacePrimary 800),
       (str "--input-text-disabled", vRef m.textPrimary 500)] := rfl

/-- Claim C5: given the same palette and ramp map, the light theme maps
`--text-primary` to step 900 of its `textPrimary` role and the dark theme to
step 100 of its `textPrimary` role, while the primitive map does not depend
on the theme mapping at all. -/
theorem buildTokens_theme_symmetry (p : List PaletteColor) (r : RampMap)
    (m : ThemeMappingPair) :
    jget (buildTokens p r m).json.themesLight (str "--text-primary") =
      some (vRef m.light.textPrimary 900) ∧
    jget (buildTokens p r m).json.themesDark (str "--text-primary") =
      some (vRef m.dark.textPrimary 100) ∧
    ∀ m2 : ThemeMappingPair,
      (buildTokens p r m).json.primitives = (buildTokens p r m2).json.primitives :=
  ⟨rfl, rfl, fun _ => rfl⟩

/-- Claim C1 counterexample: in the JSON part of the bundle the semantic
values are still `var(...)`-wrapped — `--text-primary` holds the string
`var(--c-blue-900)`, not the bare primitive name `--c-blue-900`. -/
theorem buildTokens_json_bare_names_cex :
    jget (buildTokens cexPalette cexRamps cexMapping).json.themesLight
      (str "--text-primary") = some (str "var(--c-blue-900)") ∧
    (str "var(--c-blue-900)" : Str) ≠ str "--c-blue-900" := by
  exact ⟨rfl, by decide⟩

/-- Every value of the four theme/component records is either the literal
`transparent` or a full `var(--c-<id>-<step>)` reference. -/
theorem tokenValues_shape (p : List PaletteColor)
    (r : RampMap) (m : ThemeMappingPair) :
    ∀ kv : Str × Str,
      (kv ∈ (buildTokens p r m).json.themesLight ∨
        kv ∈ (buildTokens p r m).json.themesDark ∨
        kv ∈ (buildTokens p r m).json.componentsLight ∨
        kv ∈ (buildTokens p r m).json.componentsDark) →
      kv.2 = str "transparent" ∨ ∃ id s, kv.2 = vRef id s ∧ s ∈ rampSteps := by
  intro kv hmem
  rcases hmem with h | h | h | h
  · simp only [buildTokens] at h
    rw [themeObj_light_eval] at h
    simp only [List.mem_cons, List.not_mem_nil, or_false] at h
    repeat' rcases h with rfl | h
    all_goals exact Or.inr ⟨_, _, rfl, by decide⟩
  · simp only [buildTokens] at h
    rw [themeObj_dark_eval] at h
    simp only [List.mem_cons, List.not_mem_nil, or_false] at h
    repeat' rcases h with rfl | h
    all_goals exact Or.inr ⟨_, _, rfl, by decide⟩
  · simp only [buildTokens] at h
    rw [componentsObj_light_eval] at h
    simp only [List.mem_cons, List.not_mem_nil, or_false] at h
    repeat' rcases h with rfl | h
    all_goals
      first
        | exact Or.inl rfl
        | exact Or.inr ⟨_, _, rfl, by decide⟩
  · simp only [buildTokens] at h
    rw [componentsObj_dark_eval] at h
    simp only [List.mem_cons, List.not_mem_nil, or_false] at h
    repeat' rcases h with rfl | h
    all_goals
      first
        | exact Or.inl rfl
        | exact Or.inr ⟨_, _, rfl, by decide⟩

/-- Claim C1 (amended): the JSON theme and component records carry exactly
the same strings as the CSS declarations: every value is either the literal
`transparent` or a full `var(--c-<id>-<step>)` reference — the var-wrapped
primitive name, not the bare name and not a resolved color. -/
theorem buildTokens_json_values_var_wrapped (p : List PaletteColor)
    (r : RampMap) (m : ThemeMappingPair) :
    ∀ kv : Str × Str,
      (kv ∈ (buildTokens p r m).json.themesLight ∨
        kv ∈ (buildTokens p r m).json.themesDark ∨
        kv ∈ (buildTokens p r m).json.componentsLight ∨
        kv ∈ (buildTokens p r m).json.componentsDark) →
      kv.2 = str "transparent" ∨ ∃ id s, kv.2 = vRef id s ∧ s ∈ rampSteps :=
  tokenValues_shape p r m

theorem buildTokens_json_values_var_wrapped_witness :
    (str "var(--c-blue-900)" : Str) = str "transparent" ∨
      ∃ id s, (str "var(--c-blue-900)" : Str) = vRef id s ∧ s ∈ rampSteps :=
  buildTokens_json_values_var_wrapped cexPalette cexRamps cexMapping
    (str "--text-primary", str "var(--c-blue-900)") (Or.inl (by decide))

/-- Claim C2 counterexample: with the light `textPrimary` slot naming the
rampless id `ghost`, `buildTokens` does not fail with any error — it returns
a bundle whose CSS contains the reference `var(--c-ghost-900)` while the
primitive map (the contents of the `:root` block) has no `--c-ghost-900`
entry. -/
theorem buildTokens_missing_ref_cex :
    jget (buildTokens cexPalette cexRamps ghostMapping).json.themesLight
      (str "--text-primary") = some (str "var(--c-ghost-900)") ∧
    jget (buildTokens cexPalette cexRamps ghostMapping).json.primitives
      (str "--c-ghost-900") = none ∧
    (str "var(--c-ghost-900)") <:+:
      (buildTokens cexPalette cexRamps ghostMapping).css := by
  refine ⟨rfl, rfl, ?_⟩
  set_option maxRecDepth 8000 in decide

/-- Claim C2 (amended): `buildTokens` performs no reference validation and
cannot fail.  For any id with no ramp in the ramp map, no primitive
`--c-<id>-<step>` is declared for any step, while each of the six mapping
slots of each theme has its semantic reference emitted unconditionally — so
whenever any slot of either theme names such an id, the bundle carries a
`var()` reference to a primitive that is not declared in `:root` (the caller
of this repository pre-validates instead). -/
theorem buildTokens_missing_ref_dangling (p : List PaletteColor) (r : RampMap)
    (m : ThemeMappingPair) (id : Str) (h : jget r id = none) :
    (∀ s, s ∈ rampSteps →
      jget (buildTokens p r m).json.primitives (varNamePrimitive id s) = none) ∧
    (jget (buildTokens p r m).json.themesLight (str "--surface-primary") =
        some (vRef m.light.surfacePrimary 100) ∧
      jget (buildTokens p r m).json.themesLight (str "--surface-inverse") =
        some (vRef m.light.surfaceInverse 900) ∧
      jget (buildTokens p r m).json.themesLight (str "--text-primary") =
        some (vRef m.light.textPrimary 900) ∧
      jget (buildTokens p r m).json.themesLight (str "--text-inverse") =
        some (vRef m.light.textInverse 100) ∧
      jget (buildTokens p r m).json.themesLight (str "--accent") =
        some (vRef m.light.accentPrimary 500) ∧
      jget (buildTokens p r m).json.themesLight (str "--accent-inverse") =
        some (vRef m.light.accentInverse 500)) ∧
    (jget (buildTokens p r m).json.themesDark (str "--surface-primary") =
        some (vRef m.dark.surfacePrimary 900) ∧
      jget (buildTokens p r m).json.themesDark (str "--surface-inverse") =
        some (vRef m.dark.surfaceInverse 100) ∧
      jget (buildTokens p r m).json.themesDark (str "--text-primary") =
        some (vRef m.dark.textPrimary 100) ∧
      jget (buildTokens p r m).json.themesDark (str "--text-inverse") =
        some (vRef m.dark.textInverse 900) ∧
      jget (buildTokens p r m).json.themesDark (str "--accent") =
        some (vRef m.dark.accentPrimary 500) ∧
      jget (buildTokens p r m).json.themesDark (str "--accent-inverse") =
        some (vRef m.dark.accentInverse 500)) := by
  refine ⟨?_, ⟨rfl, rfl, rfl, rfl, rfl, rfl⟩, ⟨rfl, rfl, rfl, rfl, rfl, rfl⟩⟩
  intro s hs
  show jget (buildPrimitives r p []) (varNamePrimitive id s) = none
  exact jget_buildPrimitives_missing r id h s hs p [] rfl

theorem buildTokens_missing_ref_dangling_witness :
    jget (buildTokens cexPalette cexRamps ghostMapping).json.primitives
      (varNamePrimitive (str "ghost") 900) = none ∧
    jget (buildTokens cexPalette cexRamps ghostMapping).json.themesLight
      (str "--text-primary") = some (vRef (str "ghost") 900) := by
  have h := buildTokens_missing_ref_dangling cexPalette cexRamps ghostMapping
    (str "ghost") rfl
  exact ⟨h.1 900 (by decide), h.2.1.2.2.1⟩

/-- Claim C9: a palette entry whose id has no ramp in the ramp map is
silently skipped — `buildTokens` (a total function, so the absence cannot
make it fail) returns exactly the same bundle as for the palette with that
entry removed, leaving all other primitives unaffected. -/
theorem buildTokens_skips_rampless (p1 p2 : List PaletteColor)
    (c : PaletteColor) (r : RampMap) (m : ThemeMappingPair)
    (h : jget r c.id = none) :
    buildTokens (p1 ++ c :: p2) r m = buildTokens (p1 ++ p2) r m := by
  simp only [buildTokens]
  rw [buildPrimitives_skip r c h p2 p1 []]

theorem buildTokens_skips_rampless_witness :
    buildTokens (cexPalette ++ ghostColor :: []) cexRamps cexMapping =
      buildTokens (cexPalette ++ []) cexRamps cexMapping :=
  buildTokens_skips_rampless cexPalette [] ghostColor cexRamps cexMapping rfl

/-- Claim C6: the CSS of every bundle is exactly the spec layout — one
`:root` block listing the primitive declarations sorted by key, then the
light block, then the dark block, each with semantic declarations followed
by component declarations in insertion order; the sorted key list used for
the `:root` block really is a sorted permutation of the primitive keys, and
every rendered semantic/component value is `var(<primitive-name>)` or the
literal `transparent`. -/
theorem buildTokens_css_serialization (p : List PaletteColor) (r : RampMap)
    (m : ThemeMappingPair) :
    (buildTokens p r m).css = cssLayoutSpec (buildTokens p r m).json ∧
    List.Sorted (fun a b : Str => a ≤ b)
      (sortStrs ((buildTokens p r m).json.primitives.map Prod.fst)) ∧
    List.Perm (sortStrs ((buildTokens p r m).json.primitives.map Prod.fst))
      ((buildTokens p r m).json.primitives.map Prod.fst) ∧
    (∀ kv : Str × Str,
      (kv ∈ (buildTokens p r m).json.themesLight ∨
        kv ∈ (buildTokens p r m).json.themesDark ∨
        kv ∈ (buildTokens p r m).json.componentsLight ∨
        kv ∈ (buildTokens p r m).json.componentsDark) →
      kv.2 = str "transparent" ∨ ∃ id s, kv.2 = vRef id s ∧ s ∈ rampSteps) := by
  refine ⟨?_, List.sorted_insertionSort _ _, List.perm_insertionSort _ _,
    tokenValues_shape p r m⟩
  simp only [buildTokens, cssLayoutSpec]
  rw [joinLines_three, themeBlockLines_eq_spec, themeBlockLines_eq_spec]
  · rfl
  · exact List.cons_ne_nil _ _
  · exact List.cons_ne_nil _ _
  · exact List.cons_ne_nil _ _

theorem buildTokens_css_serialization_witness :
    (buildTokens cexPalette cexRamps cexMapping).css =
      cssLayoutSpec (buildTokens cexPalette cexRamps cexMapping).json ∧
    ((str "var(--c-blue-500)" : Str) = str "transparent" ∨
      ∃ id s, (str "var(--c-blue-500)" : Str) = vRef id s ∧ s ∈ rampSteps) := by
  have h := buildTokens_css_serialization cexPalette cexRamps cexMapping
  exact ⟨h.1, h.2.2.2 (str "--accent", str "var(--c-blue-500)") (Or.inl (by decide))⟩
